import Mathlib

/-!
Verification of the VFS test-task repository (`src/include/VFS.h`,
`src/include/PhysicalFile.h`, `src/include/File.h`).

The C++ code is shallowly embedded as executable Lean functions:

* a host backing file (`PhysicalFile<stream>`) becomes a byte list with the
  same `Read`/`Write` guards as the source;
* `VFS<max_files, page_size, stream>` becomes a record of association lists
  (the `std::map`/`std::unordered_map` members) plus the backing files, and
  each member function becomes a state-passing function;
* machine integers (`size_t`) are modelled as `Nat`; the one place where the
  source can underflow a `size_t` subtraction (`page_size - pos - st_size`
  inside `WriteToFile`) uses an explicit wrap-around `sub64`; everywhere else
  subtraction is guarded by the template constants (`2 * W < pageSize`) or by
  reachable-state invariants (file size `≥ W`), so `Nat` truncated
  subtraction agrees with `size_t` subtraction;
* the template parameters `page_size` and `sizeof(size_t)` become the fields
  of a `Cfg` value (the source is templated on `page_size`; `W` is the host
  word width), multi-byte on-disk integers use little-endian byte order as on
  the host the code targets;
* loops whose termination depends on on-disk data (page-chain walks) take an
  explicit fuel argument: the C++ would diverge where the fuel runs out;
* functions that can `throw` return `Except VErr`; `std::filesystem::path`
  values for virtual paths become lists of path components (byte lists),
  rendered to the stored full-path strings by `pathBytes`;
* concurrency is out of scope: all operations are modelled in their
  sequential (single-thread, lock-respecting) interleaving.
-/

/-- Byte width parameters of the embedding: the `page_size` template
parameter and `W = sizeof(size_t)` (called `st_size` in the source). -/
structure Cfg where
  pageSize : Nat
  W : Nat
deriving DecidableEq, Repr

/-- Model of `const size_t& start = st_size` — offset of page 0 inside a backing file
(the `W`-byte `file_header` comes first). -/
def Cfg.start (c : Cfg) : Nat := c.W

/-- Wrap-around 64-bit subtraction, modelling `size_t` arithmetic where the
source can underflow. -/
def sub64 (a b : Nat) : Nat := ((((a : Int) - (b : Int)) % ((2:Int)^64)).toNat)

/-- Little-endian encoding of a `size_t` value into `W` bytes (the host is
little-endian; `reinterpret_cast<const char*>(&n)` in the source). -/
def encodeW (cfg : Cfg) (n : Nat) : List Nat :=
  (List.range cfg.W).map (fun i => n / 256 ^ i % 256)

/-- Little-endian decoding of a byte list into a `size_t` value
(`*reinterpret_cast<const size_t*>(...)` in the source). -/
def decodeW (l : List Nat) : Nat :=
  l.foldr (fun b acc => b + 256 * acc) 0

/-- Zero-extend a byte list to length `n` (models reading into a
zero-initialised buffer whose tail stays zero on a short read). -/
def padTo (l : List Nat) (n : Nat) : List Nat :=
  l ++ List.replicate (n - l.length) 0

/-- Model of `PhysicalFile<stream>`: the backing host file, modelled as its byte
contents (`file_size` is the length of `data`). -/
structure PhysicalFile where
  data : List Nat
deriving DecidableEq, Repr

/-- Model of `PhysicalFile::GetSize`. -/
def PhysicalFile.size (f : PhysicalFile) : Nat := f.data.length

/-- Model of `PhysicalFile::Write(buf, length, pos)`: returns the updated file and the
reported `bytes_written`.  Mirrors the source guard
`if (!buf || !length || pos > GetSize()) return 0;` — a buffer is modelled as
the list of the `length` bytes it holds, so only the `!length` and
`pos > size` guards remain observable.  On success the stream writes
`length` bytes at `pos` (extending the file when `pos + length > size`) and
reports `tellp() - prev = length`. -/
def PhysicalFile.writeAt (f : PhysicalFile) (bytes : List Nat) (pos : Nat) :
    PhysicalFile × Nat :=
  if bytes.length = 0 ∨ f.size < pos then (f, 0)
  else (⟨f.data.take pos ++ bytes ++ f.data.drop (pos + bytes.length)⟩, bytes.length)

/-- Model of `PhysicalFile::Write(buf, length)` — the append overload
(`Write(buf, length, GetSize())`). -/
def PhysicalFile.append (f : PhysicalFile) (bytes : List Nat) : PhysicalFile × Nat :=
  f.writeAt bytes f.size

/-- Model of `PhysicalFile::Read(buf, length, pos)`: returns the bytes placed in the
caller's buffer; the reported `bytes_read` is their number.  Mirrors the
guard `if (!buf || !length || pos >= GetSize()) return 0;` and the read of
`min(length, GetSize() - pos)` bytes. -/
def PhysicalFile.readAt (f : PhysicalFile) (len pos : Nat) : List Nat :=
  if len = 0 ∨ f.size ≤ pos then []
  else (f.data.drop pos).take (min len (f.size - pos))

/-- Model of `FileStatus` from `File.h`. -/
inductive FileStatus where
  | openW
  | openR
  | closed
deriving DecidableEq, Repr

/-- Model of `TestTask::File`: handle state for one open virtual file.  `pFile` is the
backing-file key (`const fs::path& p_file`), `name` the full virtual path
string (the map key), as byte lists. -/
structure VFile where
  pFile : List Nat
  name : List Nat
  dataLen : Nat
  page : Nat
  status : FileStatus
  readers : Nat
deriving DecidableEq, Repr

/-- Model of `VFS::Dir`: a known-directory entry (`{const fs::path& p_file; size_t page}`). -/
structure DirEnt where
  pFile : List Nat
  page : Nat
deriving DecidableEq, Repr

/-- Association-list lookup, modelling map `count`/`at`/`find` keyed by the
path string. -/
def lookupA {α : Type} : List (List Nat × α) → List Nat → Option α
  | [], _ => none
  | (k, v) :: rest, key => if k = key then some v else lookupA rest key

/-- Replace the value stored under an existing key (in-place mutation of a
map entry through a reference in the source). -/
def updateA {α : Type} : List (List Nat × α) → List Nat → α → List (List Nat × α)
  | [], _, _ => []
  | (k, v) :: rest, key, nv =>
      if k = key then (k, nv) :: rest else (k, v) :: updateA rest key nv

/-- Model of `map.erase(key)`. -/
def eraseA {α : Type} : List (List Nat × α) → List Nat → List (List Nat × α)
  | [], _ => []
  | (k, v) :: rest, key => if k = key then rest else (k, v) :: eraseA rest key

/-- The mutable state of a `VFS` object: `physical_files`, `virtual_files`,
`virtual_dirs` and the `num_of_files` counter. -/
structure VFSState where
  physicalFiles : List (List Nat × PhysicalFile)
  virtualFiles : List (List Nat × VFile)
  virtualDirs : List (List Nat × DirEnt)
  numOfFiles : Nat
deriving DecidableEq, Repr

/-- Errors thrown by the source (`Exceptions.h`); `internalError` stands for
the `std::out_of_range` a failed `map::at` would raise (unreachable in the
states the operations are actually run on). -/
inductive VErr where
  | fileReadingError
  | fileWritingError
  | dirAlreadyExists
  | fileAlreadyExists
  | internalError
deriving DecidableEq, Repr

/-- Model of `FileType::dir = 0b00000111`. -/
def dirTag : Nat := 7

/-- Model of `FileType::file = 0b01110000`. -/
def fileTag : Nat := 112

/-- A virtual path: the components of an absolute path (`[]` is the root
`"/"`).  `Open`/`Create` normalise their argument to absolute form before
use, so the embedding takes the normalised component list directly. -/
abbrev VPath : Type := List (List Nat)

/-- Model of `fs::path::string()` for an absolute virtual path: `"/a/b"` as bytes
(47 is the slash).  The root renders as `"/"`. -/
def pathBytes : VPath → List Nat
  | [] => [47]
  | ps => ps.foldl (fun acc c => acc ++ 47 :: c) []

/-- Model of `VFS::GetFileLength`: the first `W` bytes of a content page. -/
def getFileLength (cfg : Cfg) (page : List Nat) : Nat :=
  decodeW (page.take cfg.W)

/-- Model of `VFS::GetNextPage`: the final `W` bytes of a page. -/
def getNextPage (cfg : Cfg) (page : List Nat) : Nat :=
  decodeW ((page.drop (cfg.pageSize - cfg.W)).take cfg.W)

/-- Model of `VFS::SetNextPage`: writes `next_page` at
`(page + 1) * page_size - st_size + start` (return value discarded). -/
def setNextPage (cfg : Cfg) (p : PhysicalFile) (page next : Nat) : PhysicalFile :=
  (p.writeAt (encodeW cfg next) ((page + 1) * cfg.pageSize - cfg.W + cfg.start)).1

/-- Model of `VFS::SetFileLength`: writes `len` at `page * page_size + start`. -/
def setFileLength (cfg : Cfg) (p : PhysicalFile) (page len : Nat) : PhysicalFile :=
  (p.writeAt (encodeW cfg len) (page * cfg.pageSize + cfg.start)).1

/-- Model of `VFS::CreateEmptyPage`: appends `page_size` zero bytes. -/
def createEmptyPage (cfg : Cfg) (p : PhysicalFile) : PhysicalFile :=
  (p.append (List.replicate cfg.pageSize 0)).1

/-- An unchecked whole-page read into a zero-initialised `Page buf{}`
(`CreateFile` and the directory walks do not test the byte count here). -/
def readPage (cfg : Cfg) (p : PhysicalFile) (page : Nat) : List Nat :=
  padTo (p.readAt cfg.pageSize (cfg.pageSize * page + cfg.start)) cfg.pageSize

/-- Decoded metadata record: `VFS::ReadFileInfo`'s `Info` struct. -/
structure Info where
  type : Nat
  name : List Nat
  page : Nat
deriving DecidableEq, Repr

/-- Model of `VFS::ReadFileInfo(page, pos)`: decodes the record starting at `pos` and
returns it with the position after it; a zero type byte yields the sentinel
`Info` with next position 0. -/
def readFileInfo (cfg : Cfg) (page : List Nat) (pos : Nat) : Info × Nat :=
  let type := page.getD pos 0
  if type = 0 then (⟨0, [], 0⟩, 0)
  else
    let pos1 := pos + 1
    let nameSize := decodeW ((page.drop pos1).take cfg.W)
    let name := (page.drop (pos1 + cfg.W)).take nameSize
    let pageNum := decodeW ((page.drop (pos1 + cfg.W + nameSize)).take cfg.W)
    (⟨type, name, pageNum⟩, pos1 + cfg.W + nameSize + cfg.W)

/-- Whether `pat` occurs at the head of `l` (exact byte match). -/
def matchesAt : List Nat → List Nat → Bool
  | [], _ => true
  | _ :: _, [] => false
  | p :: ps, x :: xs => p = x && matchesAt ps xs

/-- Model of `std::string_view::find`: position of the first occurrence of `pat`. -/
def findSub (l pat : List Nat) : Option Nat :=
  if matchesAt pat l then some 0
  else
    match l with
    | [] => none
    | _ :: xs => (findSub xs pat).map (· + 1)

/-- Model of `VFS::FindFileInPage`: searches the page for the exact byte pattern
`[type][name_size (W bytes)][name]`. -/
def findFileInPage (cfg : Cfg) (page : List Nat) (name : List Nat) (ty : Nat) :
    Option Nat :=
  findSub page (ty :: (encodeW cfg name.length ++ name))

/-- Loop of `VFS::FindPageEnd`: advance over records while the type byte at
`pos` is nonzero and `pos < page_size`.  (The source indexes `page[pos]`
before the bound test; past the array the model reads 0 and stops.) -/
def findPageEndAux (cfg : Cfg) (page : List Nat) : Nat → Nat → Nat
  | 0, pos => pos
  | fuel + 1, pos =>
    if page.getD pos 0 ≠ 0 ∧ pos < cfg.pageSize then
      findPageEndAux cfg page fuel
        (pos + 1 + decodeW ((page.drop (pos + 1)).take cfg.W) + cfg.W + cfg.W)
    else pos

/-- Model of `VFS::FindPageEnd`: first free record position, clamped to
`page_size - st_size`.  Every loop iteration advances `pos` by at least one
and requires `pos < page_size`, so `page_size + 1` rounds of fuel always
reach the loop's own exit. -/
def findPageEnd (cfg : Cfg) (page : List Nat) : Nat :=
  min (findPageEndAux cfg page (cfg.pageSize + 1) 0) (cfg.pageSize - cfg.W)

/-- The appending loop of `VFS::WriteToFile`: while bytes remain, set
`next_page(page)` to the index the next appended page will get, then append
`min(page_size - st_size, remaining)` bytes.  The source never advances
`page`, so every iteration rewrites the same link.  `buf` is exactly the
remaining byte list; each round shortens it by at least one byte, so
`|buf| + 1` rounds of fuel always reach the loop's own exit — except when
the chunk size is 0 (`page_size ≤ st_size`), where the source spins forever
and which the template constants exclude. -/
def writeChunks (cfg : Cfg) : Nat → PhysicalFile → Nat → List Nat →
    PhysicalFile × Nat
  | 0, p, _, _ => (p, 0)
  | fuel + 1, p, page, buf =>
    if buf = [] then (p, 0)
    else
      let p1 := setNextPage cfg p page ((p.size - cfg.W) / cfg.pageSize)
      let chunk := min (cfg.pageSize - cfg.W) buf.length
      if chunk = 0 then (p1, 0)
      else
        let p2 := (p1.append (buf.take chunk)).1
        let r := writeChunks cfg fuel p2 page (buf.drop chunk)
        (r.1, chunk + r.2)

/-- Model of `VFS::WriteToFile(buf, p_file, p_file_path, len, page, pos, carry)`.
The fit test `len <= page_size - pos - st_size` is `size_t` arithmetic and
can underflow when `pos + st_size > page_size`, hence `sub64`.  In the
multi-page branch the carried head chunk is written in place (when `carry`),
the rest is appended page by page, and the tail is padded with
`page_size - (written_bytes % page_size)` zero bytes. -/
def writeToFile (cfg : Cfg) (buf : List Nat) (p : PhysicalFile)
    (len page pos : Nat) (carry : Bool) : PhysicalFile × Nat :=
  if len ≤ sub64 cfg.pageSize (pos + cfg.W) then
    p.writeAt (buf.take len) (page * cfg.pageSize + pos + cfg.start)
  else
    let head :=
      if carry then
        p.writeAt (buf.take (sub64 cfg.pageSize (pos + cfg.W)))
          (page * cfg.pageSize + pos + cfg.start)
      else (p, 0)
    let rest := (buf.drop head.2).take (len - head.2)
    let tail := writeChunks cfg (rest.length + 1) head.1 page rest
    let total := head.2 + tail.2
    ((tail.1.append (List.replicate (cfg.pageSize - total % cfg.pageSize) 0)).1, total)

/-- Model of `VFS::InsertDir`: fails with `DirAlreadyExists` when the name is taken,
otherwise inserts `{name ↦ {path, page}}` into `virtual_dirs`. -/
def insertDirE (st : VFSState) (name : List Nat) (page : Nat) (path : List Nat) :
    Except VErr VFSState :=
  if (lookupA st.virtualDirs name).isSome then .error .dirAlreadyExists
  else .ok { st with virtualDirs := st.virtualDirs ++ [(name, ⟨path, page⟩)] }

/-- Model of `VFS::InsertFile`: fails with `FileAlreadyExists` when the name is taken,
otherwise emplaces `File(path, name, page)` (status `closed`, `data_len` 0,
`readers` 0) into `virtual_files`. -/
def insertFileE (st : VFSState) (name : List Nat) (page : Nat) (path : List Nat) :
    Except VErr VFSState :=
  if (lookupA st.virtualFiles name).isSome then .error .fileAlreadyExists
  else .ok { st with virtualFiles :=
    st.virtualFiles ++ [(name, ⟨path, name, 0, page, .closed, 0⟩)] }

/-- Model of `VFS::IncrementNumOfFiles`: read the `W`-byte `file_header`, add one,
write it back (each transfer must move exactly `W` bytes), and bump the
in-memory counter. -/
def incrementNumOfFiles (cfg : Cfg) (st : VFSState) (pfPath : List Nat) :
    Except VErr VFSState :=
  match lookupA st.physicalFiles pfPath with
  | none => .error .internalError
  | some p =>
    let b := p.readAt cfg.W 0
    if b.length ≠ cfg.W then .error .fileReadingError
    else
      let w := p.writeAt (encodeW cfg (decodeW b + 1)) 0
      if w.2 ≠ cfg.W then .error .fileWritingError
      else .ok { st with
        physicalFiles := updateA st.physicalFiles pfPath w.1,
        numOfFiles := st.numOfFiles + 1 }

/-- Model of `VFS::FindSmallestPFile`: `std::min_element` over the backing files with
`<` on sizes — the first file of minimal size (returned as its map key). -/
def findSmallestPFilePath (st : VFSState) : Option (List Nat) :=
  (st.physicalFiles.foldl
    (fun acc e =>
      match acc with
      | none => some (e.1, e.2.size)
      | some be => if e.2.size < be.2 then some (e.1, e.2.size) else acc)
    none).map (·.1)

/-- The chain-tail walk at the start of `VFS::CreateFile`: read the starting
page, follow `next_page` links until 0, returning the tail page index and
its buffer.  Fuel bounds the walk (the source diverges on a cyclic chain). -/
def walkChain (cfg : Cfg) (p : PhysicalFile) (page : Nat) : Nat → Nat × List Nat
  | 0 => (page, readPage cfg p page)
  | fuel + 1 =>
    let buf := readPage cfg p page
    let nxt := getNextPage cfg buf
    if nxt = 0 then (page, buf) else walkChain cfg p nxt fuel

/-- Model of `VFS::CreateFile(parent_dir, file, p_file, p_file_path, type)`: allocate
an empty page, walk the parent directory's chain to its tail, encode the
metadata record `[type][name_size][name][new_page]`, write it with
`WriteToFile` (no carry) at `FindPageEnd` of the tail page, then register
the entry (`InsertFile` + `IncrementNumOfFiles`, or `InsertDir`). -/
def createFileM (cfg : Cfg) (st : VFSState) (pfPath : List Nat)
    (parentDir file : VPath) (ty : Nat) (fuel : Nat) : Except VErr VFSState :=
  match lookupA st.physicalFiles pfPath with
  | none => .error .internalError
  | some p0 =>
    let p1 := createEmptyPage cfg p0
    match (if parentDir = ([] : VPath) then some 0
           else (lookupA st.virtualDirs (pathBytes parentDir)).map (·.page)) with
    | none => .error .internalError
    | some page0 =>
      let tail := walkChain cfg p1 page0 fuel
      let nameB := pathBytes file
      let newPage := (p1.size - cfg.W) / cfg.pageSize - 1
      let record := ty :: (encodeW cfg nameB.length ++ nameB ++ encodeW cfg newPage)
      let w := writeToFile cfg record p1 (1 + cfg.W + nameB.length + cfg.W)
        tail.1 (findPageEnd cfg tail.2) false
      let st1 := { st with physicalFiles := updateA st.physicalFiles pfPath w.1 }
      if ty = fileTag then
        match insertFileE st1 nameB newPage pfPath with
        | .error e => .error e
        | .ok st2 => incrementNumOfFiles cfg st2 pfPath
      else if ty = dirTag then
        insertDirE st1 nameB newPage pfPath
      else .ok st1

/-- The missing-directory collection loop at the head of
`VFS::OpenExistingDirectories`: climb `file_path` towards the root while the
current path is not in `virtual_dirs`, pushing each missing path (the
shallowest missing component ends on top of the stack, i.e. at the head).
Returns the stack and the final (mutated) `file_path`.  Each round drops
one trailing component, so `|file_path| + 1` rounds of fuel always reach
the loop's own exit. -/
def collectMissing (dirs : List (List Nat × DirEnt)) :
    Nat → VPath → List VPath → List VPath × VPath
  | 0, p, acc => (acc, p)
  | fuel + 1, p, acc =>
    match p with
    | [] => (acc, [])
    | _ :: _ =>
      if (lookupA dirs (pathBytes p)).isSome then (acc, p)
      else collectMissing dirs fuel p.dropLast (p :: acc)

/-- The inner do-while of the directory/file walks: read page `page` of the
chain (a short read throws `FileReadingError`), search it for the exact
record pattern of `target` with type `ty`; on a miss follow `next_page`
(stop at 0), on a hit decode and return the record. -/
def findInChain (cfg : Cfg) (p : PhysicalFile) (target : List Nat) (ty : Nat)
    (page : Nat) : Nat → Except VErr (Option Info)
  | 0 => .ok none
  | fuel + 1 =>
    let bytes := p.readAt cfg.pageSize (cfg.pageSize * page + cfg.start)
    if bytes.length ≠ cfg.pageSize then .error .fileReadingError
    else
      match findFileInPage cfg (padTo bytes cfg.pageSize) target ty with
      | none =>
        let nxt := getNextPage cfg (padTo bytes cfg.pageSize)
        if nxt = 0 then .ok none else findInChain cfg p target ty nxt fuel
      | some pos => .ok (some (readFileInfo cfg (padTo bytes cfg.pageSize) pos).1)

/-- The resolution loop of `VFS::OpenExistingDirectories`: for each stacked
path (top first) search the current chain; on a hit insert the decoded
directory and continue from its page (`file_path := top`); if the hit's page
is 0 or the chain ends, stop with the remaining stack. -/
def resolveMissing (cfg : Cfg) (st : VFSState) (pfPath : List Nat)
    (p : PhysicalFile) (page : Nat) (fp : VPath) (chainFuel : Nat) :
    List VPath → Except VErr (VFSState × List VPath × VPath)
  | [] => .ok (st, [], fp)
  | top :: rest =>
    match findInChain cfg p (pathBytes top) dirTag page chainFuel with
    | .error e => .error e
    | .ok none => .ok (st, top :: rest, fp)
    | .ok (some info) =>
      match insertDirE st info.name info.page pfPath with
      | .error e => .error e
      | .ok st1 =>
        if info.page = 0 then .ok (st1, top :: rest, fp)
        else resolveMissing cfg st1 pfPath p info.page top chainFuel rest

/-- Model of `VFS::OpenExistingDirectories(file_path)`: collect the missing prefix of
`file_path`, then resolve it from the deepest known ancestor's chain,
returning the unresolved stack and the mutated `file_path`. -/
def openExistingDirectories (cfg : Cfg) (st : VFSState) (fp : VPath)
    (chainFuel : Nat) : Except VErr (VFSState × List VPath × VPath) :=
  let c := collectMissing st.virtualDirs (fp.length + 1) fp []
  if c.1 ≠ [] ∧ c.2 ≠ ([] : VPath) then
    match lookupA st.virtualDirs (pathBytes c.2) with
    | none => .error .internalError
    | some de =>
      match lookupA st.physicalFiles de.pFile with
      | none => .error .internalError
      | some p => resolveMissing cfg st de.pFile p de.page c.2 chainFuel c.1
  else .ok (st, c.1, c.2)

/-- Model of `VFS::OpenExistingFile(p_file, file_path)`: walk the parent directory's
chain for the file's record; on a hit `InsertFile(file_path, info.page,
p_file.GetPath())` and report success. -/
def openExistingFile (cfg : Cfg) (st : VFSState) (p : PhysicalFile)
    (pfPath : List Nat) (filePath : VPath) (fuel : Nat) :
    Except VErr (VFSState × Bool) :=
  match lookupA st.virtualDirs (pathBytes filePath.dropLast) with
  | none => .error .internalError
  | some de =>
    match findInChain cfg p (pathBytes filePath) fileTag de.page fuel with
    | .error e => .error e
    | .ok none => .ok (st, false)
    | .ok (some info) =>
      match insertFileE st (pathBytes filePath) info.page pfPath with
      | .error e => .error e
      | .ok st1 => .ok (st1, true)

/-- Model of `VFS::Open(name)`: null name and root / directly-under-root paths give a
null handle; an already-open path succeeds (readers incremented) only in
`openR` status; otherwise the parent chain is resolved, the file record
searched, and on a hit the entry is loaded (`data_len` from the first page),
switched to `openR`, its reader counted, and its handle (map key) returned. -/
def vfsOpen (cfg : Cfg) (st : VFSState) (name : Option VPath) (fuel : Nat) :
    Except VErr (VFSState × Option (List Nat)) :=
  match name with
  | none => .ok (st, none)
  | some p =>
    if p = ([] : VPath) ∨ p.dropLast = ([] : VPath) then .ok (st, none)
    else
      let key := pathBytes p
      match lookupA st.virtualFiles key with
      | some f =>
        if f.status ≠ .openR then .ok (st, none)
        else
          let f1 := { f with readers := f.readers + 1 }
          let st1 := { st with virtualFiles := updateA st.virtualFiles key f1 }
          .ok (st1, some key)
      | none =>
        match openExistingDirectories cfg st p.dropLast fuel with
        | .error e => .error e
        | .ok (st1, stack, parent1) =>
          if stack ≠ [] then .ok (st1, none)
          else
            match lookupA st1.virtualDirs (pathBytes parent1) with
            | none => .error .internalError
            | some de =>
              match lookupA st1.physicalFiles de.pFile with
              | none => .error .internalError
              | some pf =>
                match openExistingFile cfg st1 pf de.pFile p fuel with
                | .error e => .error e
                | .ok (st2, false) => .ok (st2, none)
                | .ok (st2, true) =>
                  match lookupA st2.virtualFiles key with
                  | none => .error .internalError
                  | some f =>
                    let bytes := pf.readAt cfg.pageSize (f.page * cfg.pageSize + cfg.start)
                    if bytes.length ≠ cfg.pageSize then .error .fileReadingError
                    else
                      let f1 := { f with dataLen := getFileLength cfg bytes,
                                         status := FileStatus.openR,
                                         readers := f.readers + 1 }
                      let st3 := { st2 with virtualFiles := updateA st2.virtualFiles key f1 }
                      .ok (st3, some key)

/-- The missing-directory creation loop of `VFS::Create`: pop each stacked
path (shallowest first) and `CreateFile` it as a directory under its parent
in the chosen backing file. -/
def createDirsLoop (cfg : Cfg) (st : VFSState) (pfPath : List Nat) (fuel : Nat) :
    List VPath → Except VErr VFSState
  | [] => .ok st
  | top :: rest =>
    match createFileM cfg st pfPath top.dropLast top dirTag fuel with
    | .error e => .error e
    | .ok st1 => createDirsLoop cfg st1 pfPath fuel rest

/-- Model of `VFS::Create(name)`: null name and root / directly-under-root paths give
a null handle; a path already present in `virtual_files` (any status) gives
a null handle; otherwise the missing directory prefix is computed, the
backing file chosen (smallest host file when the whole prefix is missing up
to the root, else the deepest existing ancestor's file), the file looked up
on disk when no directory was missing, the missing directories and — unless
found — the file created, a found file's `data_len` re-read, and the entry
set to `openW` and returned. -/
def vfsCreate (cfg : Cfg) (st : VFSState) (name : Option VPath) (fuel : Nat) :
    Except VErr (VFSState × Option (List Nat)) :=
  match name with
  | none => .ok (st, none)
  | some p =>
    if p = ([] : VPath) ∨ p.dropLast = ([] : VPath) then .ok (st, none)
    else
      let key := pathBytes p
      if (lookupA st.virtualFiles key).isSome then .ok (st, none)
      else
        match openExistingDirectories cfg st p.dropLast fuel with
        | .error e => .error e
        | .ok (st1, stack, parent1) =>
          match (if parent1 = ([] : VPath) then findSmallestPFilePath st1
                 else (lookupA st1.virtualDirs (pathBytes parent1)).map (·.pFile)) with
          | none => .error .internalError
          | some pfPath =>
            match lookupA st1.physicalFiles pfPath with
            | none => .error .internalError
            | some pf =>
              match (if stack = [] ∧ p.dropLast ≠ ([] : VPath) then
                       openExistingFile cfg st1 pf pfPath p fuel
                     else .ok (st1, false)) with
              | .error e => .error e
              | .ok (st2, fileFound) =>
                match createDirsLoop cfg st2 pfPath fuel stack with
                | .error e => .error e
                | .ok st3 =>
                  match (if fileFound then
                           match lookupA st3.virtualFiles key,
                                 lookupA st3.physicalFiles pfPath with
                           | some f, some pf1 =>
                             let bytes := pf1.readAt cfg.pageSize
                               (f.page * cfg.pageSize + cfg.start)
                             if bytes.length ≠ cfg.pageSize then .error .fileReadingError
                             else
                               let f1 := { f with dataLen := getFileLength cfg bytes }
                               let st3a := { st3 with virtualFiles := updateA st3.virtualFiles key f1 }
                               .ok st3a
                           | _, _ => .error .internalError
                         else createFileM cfg st3 pfPath p.dropLast p fileTag fuel) with
                  | .error e => .error e
                  | .ok st4 =>
                    match lookupA st4.virtualFiles key with
                    | none => .error .internalError
                    | some f =>
                      let f1 := { f with status := FileStatus.openW }
                      let st5 := { st4 with virtualFiles := updateA st4.virtualFiles key f1 }
                      .ok (st5, some key)

/-- The multi-page loop of `VFS::Read`: while the accumulated count differs
from the clamped `len`, read the `next_page` link of the current page into
the `page` variable (a short read only overwrites the low bytes of the old
value, as the source reads into `&page`), then read the next chunk — from
the offset computed with `f->page`, the FIRST page of the file, as the
source does.  Fuel bounds the loop (the source spins when a chunk read
returns 0 forever). -/
def readLoop (cfg : Cfg) (p : PhysicalFile) (firstPage len : Nat)
    (acc : List Nat) (page : Nat) : Nat → List Nat
  | 0 => acc
  | fuel + 1 =>
    if acc.length = len then acc
    else
      let linkBytes := p.readAt cfg.W ((page + 1) * cfg.pageSize - cfg.W + cfg.start)
      let page1 := decodeW (linkBytes ++ (encodeW cfg page).drop linkBytes.length)
      let chunk := p.readAt (min (cfg.pageSize - cfg.W) (len - acc.length))
        (firstPage * cfg.pageSize + cfg.start + cfg.W)
      readLoop cfg p firstPage len (acc ++ chunk) page1 fuel

/-- Model of `VFS::Read(f, buff, len)`: returns the bytes placed in `buff` (the
reported `bytes_read` is their number).  Zero result on a null handle, null
buffer, zero length, or a status other than `openR`; `len` is clamped to
`data_len`; a request within the first page's payload
(`page_size - 2 * st_size`) is served by one read at offset `st_size` into
`first_page`, larger requests go through `readLoop`. -/
def vfsRead (cfg : Cfg) (st : VFSState) (h : Option (List Nat)) (bufNull : Bool)
    (len fuel : Nat) : List Nat :=
  match h with
  | none => []
  | some key =>
    if bufNull ∨ len = 0 then []
    else
      match lookupA st.virtualFiles key with
      | none => []
      | some f =>
        if f.status ≠ .openR then []
        else
          match lookupA st.physicalFiles f.pFile with
          | none => []
          | some p =>
            let len1 := if len ≤ f.dataLen then len else f.dataLen
            if len1 ≤ cfg.pageSize - cfg.W - cfg.W then
              p.readAt len1 (f.page * cfg.pageSize + cfg.start + cfg.W)
            else
              let first := p.readAt (cfg.pageSize - cfg.W - cfg.W)
                (f.page * cfg.pageSize + cfg.start + cfg.W)
              readLoop cfg p f.page len1 first f.page fuel

/-- Model of `VFS::Write(f, buff, len)`: returns the updated state and the reported
`bytes_written`.  Zero result without touching any backing file on a null
handle, null buffer, zero length, or a status other than `openW`; otherwise
`WriteToFile` at position `(data_len % (page_size - st_size)) + st_size` of
the file's first page (with carry), then `data_len` is bumped by the result
and re-written via `SetFileLength`. -/
def vfsWrite (cfg : Cfg) (st : VFSState) (h : Option (List Nat))
    (buf : Option (List Nat)) (len : Nat) : VFSState × Nat :=
  match h with
  | none => (st, 0)
  | some key =>
    match buf with
    | none => (st, 0)
    | some bytes =>
      if len = 0 then (st, 0)
      else
        match lookupA st.virtualFiles key with
        | none => (st, 0)
        | some f =>
          if f.status ≠ .openW then (st, 0)
          else
            match lookupA st.physicalFiles f.pFile with
            | none => (st, 0)
            | some p =>
              let w := writeToFile cfg bytes p len f.page
                (f.dataLen % (cfg.pageSize - cfg.W) + cfg.W) true
              let newLen := f.dataLen + w.2
              let p1 := setFileLength cfg w.1 f.page newLen
              let f1 := { f with dataLen := newLen }
              let st1 := { st with physicalFiles := updateA st.physicalFiles f.pFile p1,
                                   virtualFiles := updateA st.virtualFiles key f1 }
              (st1, w.2)

/-- Model of `VFS::Close(f)`: no-op on a null handle or a name not in
`virtual_files`.  A nonzero `readers` count is decremented and, if still
nonzero, the entry is kept; otherwise (including a write handle, whose
count is 0) the entry is erased.  No backing file is touched. -/
def vfsClose (st : VFSState) (h : Option (List Nat)) : VFSState :=
  match h with
  | none => st
  | some key =>
    match lookupA st.virtualFiles key with
    | none => st
    | some f =>
      if f.readers ≠ 0 ∧ f.readers - 1 ≠ 0 then
        let f1 := { f with readers := f.readers - 1 }
        { st with virtualFiles := updateA st.virtualFiles key f1 }
      else { st with virtualFiles := eraseA st.virtualFiles key }

/-- The record do-while of `VFS::Init`: decode the record at `pos`; the
`switch` falls through from `FileType::dir` (which calls `InsertDir`) into
`FileType::file` and `default`, which do nothing; continue while
`0 < pos ∧ pos < page_size - st_size`.  Fuel bounds the loop. -/
def initRecordsLoop (cfg : Cfg) (st : VFSState) (pPath : List Nat)
    (buf : List Nat) (pos : Nat) : Nat → Except VErr VFSState
  | 0 => .ok st
  | fuel + 1 =>
    let r := readFileInfo cfg buf pos
    match (if r.1.type = dirTag then insertDirE st r.1.name r.1.page pPath
           else .ok st) with
    | .error e => .error e
    | .ok st1 =>
      if 0 < r.2 ∧ r.2 < cfg.pageSize - cfg.W then
        initRecordsLoop cfg st1 pPath buf r.2 fuel
      else .ok st1

/-- The page do-while of `VFS::Init`: read each page of page 0's chain (a
short read throws `FileReadingError`), run the record loop over it, and
follow `next_page` while it is positive. -/
def initPagesLoop (cfg : Cfg) (st : VFSState) (pPath : List Nat)
    (p : PhysicalFile) (page : Nat) : Nat → Except VErr VFSState
  | 0 => .ok st
  | fuel + 1 =>
    let bytes := p.readAt cfg.pageSize (page * cfg.pageSize + cfg.start)
    if bytes.length ≠ cfg.pageSize then .error .fileReadingError
    else
      match initRecordsLoop cfg st pPath bytes 0 cfg.pageSize with
      | .error e => .error e
      | .ok st1 =>
        let nxt := getNextPage cfg bytes
        if 0 < nxt then initPagesLoop cfg st1 pPath p nxt fuel else .ok st1

/-- Model of `VFS::Init(path, file)` — the per-backing-file bootstrap: read the
`W`-byte `file_header` (exactly `W` bytes or `FileReadingError`); when it is
zero there is nothing to find; otherwise add it to `num_of_files` and walk
page 0's chain with the record loop. -/
def vfsInit (cfg : Cfg) (st : VFSState) (pPath : List Nat) (fuel : Nat) :
    Except VErr VFSState :=
  match lookupA st.physicalFiles pPath with
  | none => .error .internalError
  | some p =>
    let hdr := p.readAt cfg.W 0
    if hdr.length ≠ cfg.W then .error .fileReadingError
    else if decodeW hdr = 0 then .ok st
    else initPagesLoop cfg { st with numOfFiles := st.numOfFiles + decodeW hdr }
      pPath p 0 fuel

/-- The empty-backing-file initialisation in the constructor (lines 163-169):
a `W`-byte zero `file_header` followed by one zeroed page. -/
def initBackingFile (cfg : Cfg) : PhysicalFile :=
  createEmptyPage cfg
    ((PhysicalFile.writeAt ⟨[]⟩ (List.replicate cfg.W 0) 0).1)

/-- Spec-side record collector for one directory page: the records the
bootstrap walker visits, starting at `pos` (the trailing sentinel record
included), continuing under the same loop condition as `initRecordsLoop`. -/
def pageRecords (cfg : Cfg) (buf : List Nat) (pos : Nat) : Nat → List Info
  | 0 => []
  | fuel + 1 =>
    let r := readFileInfo cfg buf pos
    r.1 :: (if 0 < r.2 ∧ r.2 < cfg.pageSize - cfg.W then pageRecords cfg buf r.2 fuel
            else [])

/-- Spec-side record collector for a page chain: all records the bootstrap
walker visits from `page` on, following `next_page` links. -/
def chainRecords (cfg : Cfg) (p : PhysicalFile) (page : Nat) : Nat → List Info
  | 0 => []
  | fuel + 1 =>
    let bytes := p.readAt cfg.pageSize (page * cfg.pageSize + cfg.start)
    if bytes.length ≠ cfg.pageSize then []
    else
      pageRecords cfg bytes 0 cfg.pageSize ++
        (if 0 < getNextPage cfg bytes then
           chainRecords cfg p (getNextPage cfg bytes) fuel
         else [])

/-- Spec-side effect of bootstrap on the known-directories index: insert
each `dir`-type record (name mapped to its page and backing file), skip
everything else. -/
def foldInsertDirs (m : List (List Nat × DirEnt)) (pPath : List Nat)
    (rs : List Info) : List (List Nat × DirEnt) :=
  rs.foldl (fun acc r => if r.type = dirTag then acc ++ [(r.name, ⟨pPath, r.page⟩)]
                         else acc) m

/-! ### Concrete scenario

A scaled-down instance of spec scenario 4 (`PAGE_SIZE = 16`, `W = 2`, so the
first content page holds `16 - 2*2 = 12` payload bytes): construct a VFS on
one empty backing file, `Create "/d/g"`, write 13 bytes (one more than the
first page's payload), `Close`, `Open "/d/g"`, read 13 bytes. -/

/-- Scaled template parameters: `page_size = 16`, `W = 2`. -/
def cfgS : Cfg := ⟨16, 2⟩

/-- Host path key of the single backing file. -/
def bfKey : List Nat := [97]

/-- State after construction on one empty backing file (its bootstrap reads
a zero `file_header` and inserts nothing). -/
def st0 : VFSState := ⟨[(bfKey, initBackingFile cfgS)], [], [], 0⟩

/-- The virtual path `"/d/g"` as components. -/
def pathDG : VPath := [[100], [103]]

/-- The stored full-path string `"/d/g"`. -/
def keyDG : List Nat := pathBytes pathDG

/-- Thirteen distinct data bytes (`data_len` one past the first page's payload). -/
def dataD : List Nat := [1, 2, 3, 4, 5, 6, 7, 8, 9, 10, 11, 12, 13]

/-- Model of `Create("/d/g")`. -/
def createRes : Except VErr (VFSState × Option (List Nat)) :=
  vfsCreate cfgS st0 (some pathDG) 20

/-- State after the create. -/
def st1 : VFSState := ((createRes.toOption).getD (st0, none)).1

/-- Model of `Write(h, dataD, 13)`. -/
def writeRes : VFSState × Nat := vfsWrite cfgS st1 (some keyDG) (some dataD) 13

/-- State after the write. -/
def st2 : VFSState := writeRes.1

/-- State after `Close(h)`. -/
def st3 : VFSState := vfsClose st2 (some keyDG)

/-- Model of `Open("/d/g")`. -/
def openRes : Except VErr (VFSState × Option (List Nat)) :=
  vfsOpen cfgS st3 (some pathDG) 20

/-- State after the open. -/
def st4 : VFSState := ((openRes.toOption).getD (st3, none)).1

/-- Model of `Read(h, out, 13)` — the bytes the VFS places in the caller's buffer. -/
def readOut : List Nat := vfsRead cfgS st4 (some keyDG) false 13 20

/-- The handle entry for `"/d/g"` in `st4` (status `openR`, `data_len` 13,
first page 2, one reader). -/
def fDG : VFile := ⟨bfKey, keyDG, 13, 2, .openR, 1⟩

/-- The backing file contents after the write (also the contents `st3` and
`st4` see: `Close` and `Open` do not write). -/
def pfFinal : PhysicalFile := (lookupA st2.physicalFiles bfKey).getD ⟨[]⟩

/-- The handle entry for `"/d/g"` in `st2` (write handle: `readers = 0`). -/
def fDGw : VFile := ⟨bfKey, keyDG, 13, 2, .openW, 0⟩

/-! Concrete bootstrap instance for the C8 witness: one backing file whose
header counts one virtual file and whose page 0 holds a single `dir`
record `"/d" ↦ page 1`. -/

/-- Host path key of the bootstrap witness backing file. -/
def bfKeyI : List Nat := [98]

/-- Its contents: header `1`, then one 16-byte page holding the record
`[dir]["/d"][page 1]` and a zero `next_page` link. -/
def pfI : PhysicalFile :=
  ⟨[1, 0] ++ [7, 2, 0, 47, 100, 1, 0] ++ List.replicate 9 0⟩

/-- Pre-bootstrap state for the witness. -/
def stI : VFSState := ⟨[(bfKeyI, pfI)], [], [], 0⟩

/-- Post-bootstrap state for the witness. -/
def stIres : VFSState := ((vfsInit cfgS stI bfKeyI 5).toOption).getD stI

/-- An outstanding write handle for `"/d/g"` (as `Create` leaves it). -/
def fC3 : VFile := ⟨bfKey, keyDG, 0, 2, .openW, 0⟩

/-- A state in which `"/d/g"` is open for writing. -/
def stC3 : VFSState := ⟨[], [(keyDG, fC3)], [], 0⟩

/-! ### Theorems -/

set_option maxRecDepth 16000

/-- Helper: a path with at least two components is neither the root nor
directly under the root. -/
theorem vpathGuardFalse {p : VPath} (hp : 2 ≤ p.length) :
    ¬(p = ([] : VPath) ∨ p.dropLast = ([] : VPath)) := by
  rintro (h | h)
  · subst h
    simp at hp
  · have := List.length_dropLast p
    rw [h] at this
    simp at this
    omega

/-- C1: the round-trip law fails on the code.  In the scaled scenario
(`PAGE_SIZE = 16`, `W = 2`, payload of the first page 12 bytes) the sequence
`Create("/d/g"); Write(h, dataD, 13); Close(h); h' = Open("/d/g");
Read(h', out, 13)` yields a full-length result whose last byte is `dataD`'s
FIRST byte instead of its thirteenth: the multi-page read loop recomputes
every chunk's offset from `f->page` (the first page) instead of the current
chain page, so `out ≠ dataD` although both `Create` and `Open` returned
valid handles and `Write` reported 13 bytes written. -/
theorem c1_roundTripFails :
    createRes.toOption.map (·.2) = some (some keyDG) ∧
    writeRes.2 = 13 ∧
    openRes.toOption.map (·.2) = some (some keyDG) ∧
    readOut.length = dataD.length ∧
    readOut = dataD.take 12 ++ [1] ∧
    readOut ≠ dataD := by
  decide

/-- C2: the whole-pages invariant `(size(b) - W) % PAGE_SIZE == 0` holds
after construction and after the `Create`, but the 13-byte `Write` (one
byte past the first page's payload) breaks it: `WriteToFile` pads the tail
with `page_size - (written_bytes % page_size)` zero bytes, counting the
carried in-place bytes in `written_bytes`, so the appended page stays short
(afterwards `size = 54` and `(54 - 2) % 16 = 4 ≠ 0`). -/
theorem c2_pageInvariantBroken :
    ((initBackingFile cfgS).size - cfgS.W) % cfgS.pageSize = 0 ∧
    ((((lookupA st1.physicalFiles bfKey).getD ⟨[]⟩).size - cfgS.W) % cfgS.pageSize
       = 0) ∧
    writeRes.2 = 13 ∧
    (((lookupA st2.physicalFiles bfKey).getD ⟨[]⟩).size = 54 ∧
     (54 - cfgS.W) % cfgS.pageSize ≠ 0) := by
  decide

/-- C7 counterexample: `PhysicalFile::Write` does NOT write at every offset —
for `offset > size` (here an empty file and offset 1) it returns 0 and
leaves the file untouched, instead of writing `len = 1` byte. -/
theorem c7_writeBeyondSizeRejected :
    PhysicalFile.writeAt ⟨[]⟩ [7] 1 = (⟨[]⟩, 0) ∧
    (PhysicalFile.writeAt ⟨[]⟩ [7] 1).2 ≠ 1 := by
  decide

/-- C7 (amended): for a nonempty buffer and an offset at most the current
size, `write` reports `len` bytes written, places exactly the buffer's
bytes at `offset`, leaves the bytes before `offset` and from
`offset + len` on unchanged, and extends the file to
`max size (offset + len)`. -/
theorem c7_writeAtSpec (f : PhysicalFile) (bytes : List Nat) (pos : Nat)
    (hb : bytes ≠ []) (hpos : pos ≤ f.size) :
    (f.writeAt bytes pos).2 = bytes.length ∧
    (f.writeAt bytes pos).1.size = max f.size (pos + bytes.length) ∧
    ((f.writeAt bytes pos).1.data.drop pos).take bytes.length = bytes ∧
    (f.writeAt bytes pos).1.data.take pos = f.data.take pos ∧
    (f.writeAt bytes pos).1.data.drop (pos + bytes.length)
      = f.data.drop (pos + bytes.length) := by
  have hlen : bytes.length ≠ 0 := by
    simpa using hb
  have hpos1 : pos ≤ f.data.length := hpos
  have hguard : ¬(bytes.length = 0 ∨ f.size < pos) := by
    push_neg
    exact ⟨hlen, hpos⟩
  have htk : (f.data.take pos).length = pos := by
    rw [List.length_take]
    omega
  unfold PhysicalFile.writeAt
  rw [if_neg hguard]
  dsimp only
  refine ⟨rfl, ?_, ?_, ?_, ?_⟩
  · simp only [PhysicalFile.size, List.length_append, htk, List.length_drop]
    omega
  · rw [List.append_assoc, List.drop_left' htk, List.take_left' rfl]
  · rw [List.append_assoc, List.take_left' htk]
  · rw [List.drop_left' (by simp only [List.length_append, htk])]

/-- C7 witness: the amended write contract evaluated at `f = [1, 2]`,
`bytes = [5]`, `pos = 1`. -/
theorem c7_writeAtSpecWitness :
    (PhysicalFile.writeAt ⟨[1, 2]⟩ [5] 1).2 = 1 ∧
    (PhysicalFile.writeAt ⟨[1, 2]⟩ [5] 1).1.size = max 2 2 ∧
    ((PhysicalFile.writeAt ⟨[1, 2]⟩ [5] 1).1.data.drop 1).take 1 = [5] ∧
    (PhysicalFile.writeAt ⟨[1, 2]⟩ [5] 1).1.data.take 1
      = (List.take 1 [1, 2] : List Nat) ∧
    (PhysicalFile.writeAt ⟨[1, 2]⟩ [5] 1).1.data.drop 2
      = (List.drop 2 [1, 2] : List Nat) := by
  have h := c7_writeAtSpec ⟨[1, 2]⟩ [5] 1 (by decide) (by decide)
  exact h

/-- C10: a null name pointer makes both `Open` and `Create` return a null
handle with the state untouched, before any lock or I/O. -/
theorem c10_nullName (cfg : Cfg) (st : VFSState) (fuel : Nat) :
    vfsOpen cfg st none fuel = .ok (st, none) ∧
    vfsCreate cfg st none fuel = .ok (st, none) :=
  ⟨rfl, rfl⟩

/-- C3: while any handle for `p` is outstanding, `Open(p)` returns a null
handle unless the entry's status is `OpenForRead`; in the `OpenForRead` case
it increments the entry's reader count and returns the same handle.  In
particular an outstanding `Create` handle (status `openW`) makes `Open(p)`
return null with the state unchanged. -/
theorem c3_writerExclusion (cfg : Cfg) (st : VFSState) (p : VPath) (f : VFile)
    (fuel : Nat) (hp : 2 ≤ p.length)
    (hmem : lookupA st.virtualFiles (pathBytes p) = some f) :
    (f.status ≠ .openR → vfsOpen cfg st (some p) fuel = .ok (st, none)) ∧
    (f.status = .openR → vfsOpen cfg st (some p) fuel =
      .ok ({ st with
             virtualFiles := updateA st.virtualFiles (pathBytes p)
                               { f with readers := f.readers + 1 } },
           some (pathBytes p))) := by
  constructor
  · intro hs
    simp only [vfsOpen, hmem]
    rw [if_neg (vpathGuardFalse hp), if_pos hs]
  · intro hs
    simp only [vfsOpen, hmem]
    rw [if_neg (vpathGuardFalse hp), if_neg (fun hc => hc hs)]

/-- C3 witness: opening `"/d/g"` while a write handle for it is outstanding
returns a null handle and leaves the state unchanged. -/
theorem c3_writerExclusionWitness :
    vfsOpen cfgS stC3 (some pathDG) 5 = .ok (stC3, none) :=
  (c3_writerExclusion cfgS stC3 pathDG fC3 5 (by decide) (by decide)).1 (by decide)

/-- C5: as long as a handle for `p` is in `virtual_files` (as after a
`Create` with no intervening `Close`), a second `Create(p)` returns a null
handle and leaves the whole state — index maps and backing files —
unchanged. -/
theorem c5_createWhileOpenRejected (cfg : Cfg) (st : VFSState) (p : VPath)
    (fuel : Nat) (hp : 2 ≤ p.length)
    (hmem : (lookupA st.virtualFiles (pathBytes p)).isSome = true) :
    vfsCreate cfg st (some p) fuel = .ok (st, none) := by
  simp only [vfsCreate, hmem]
  rw [if_neg (vpathGuardFalse hp)]
  simp

/-- C5 witness: repeating `Create("/d/g")` right after the first `Create`
(state `st1`) returns a null handle and changes nothing. -/
theorem c5_createWhileOpenRejectedWitness :
    vfsCreate cfgS st1 (some pathDG) 20 = .ok (st1, none) :=
  c5_createWhileOpenRejected cfgS st1 pathDG 20 (by decide) (by decide)

/-- C6: `Read` and `Write` report 0 transferred bytes — and `Write` returns
the state unchanged, touching no backing file — on every soft contract
violation: null handle, null buffer, zero length, or a handle whose status
is not the required mode (`openR` for `Read`, `openW` for `Write`). -/
theorem c6_softContractViolations (cfg : Cfg) (st : VFSState) (len fuel : Nat) :
    (∀ bufNull, vfsRead cfg st none bufNull len fuel = []) ∧
    (∀ buf, vfsWrite cfg st none buf len = (st, 0)) ∧
    (∀ key, vfsRead cfg st (some key) true len fuel = []) ∧
    (∀ key, vfsWrite cfg st (some key) none len = (st, 0)) ∧
    (∀ key bufNull, vfsRead cfg st (some key) bufNull 0 fuel = []) ∧
    (∀ key bytes, vfsWrite cfg st (some key) (some bytes) 0 = (st, 0)) ∧
    (∀ key f bufNull, lookupA st.virtualFiles key = some f →
       f.status ≠ .openR → vfsRead cfg st (some key) bufNull len fuel = []) ∧
    (∀ key f bytes, lookupA st.virtualFiles key = some f →
       f.status ≠ .openW → vfsWrite cfg st (some key) (some bytes) len = (st, 0)) := by
  refine ⟨fun _ => rfl, fun _ => rfl, ?_, fun _ => rfl, ?_, ?_, ?_, ?_⟩
  · intro key
    simp [vfsRead]
  · intro key bufNull
    simp [vfsRead]
  · intro key bytes
    simp [vfsWrite]
  · intro key f bufNull hf hs
    cases bufNull
    · by_cases hl : len = 0
      · simp [vfsRead, hl]
      · simp [vfsRead, hl, hf, hs]
    · simp [vfsRead]
  · intro key f bytes hf hs
    by_cases hl : len = 0
    · simp [vfsWrite, hl]
    · simp [vfsWrite, hl, hf, hs]

/-- C6 witness: writing through the read handle of `st4` (wrong mode)
reports 0 bytes and leaves the state unchanged. -/
theorem c6_softContractViolationsWitness :
    vfsWrite cfgS st4 (some keyDG) (some [9]) 1 = (st4, 0) :=
  (c6_softContractViolations cfgS st4 1 20).2.2.2.2.2.2.2 keyDG fDG [9]
    (by decide) (by decide)

/-- C9: `Close` is a no-op on a null handle or an unknown path; a handle
with at least two readers is only decremented; otherwise — a single reader,
or a write handle whose reader count is 0 — the entry is erased by one
`Close`; and `Close` never modifies any backing file. -/
theorem c9_closeBehaviour (st : VFSState) :
    vfsClose st none = st ∧
    (∀ key, lookupA st.virtualFiles key = none → vfsClose st (some key) = st) ∧
    (∀ key f, lookupA st.virtualFiles key = some f → 2 ≤ f.readers →
       vfsClose st (some key) =
         { st with
           virtualFiles := updateA st.virtualFiles key
                             { f with readers := f.readers - 1 } }) ∧
    (∀ key f, lookupA st.virtualFiles key = some f → f.readers ≤ 1 →
       vfsClose st (some key) =
         { st with virtualFiles := eraseA st.virtualFiles key }) ∧
    (∀ h, (vfsClose st h).physicalFiles = st.physicalFiles) := by
  refine ⟨rfl, ?_, ?_, ?_, ?_⟩
  · intro key hk
    simp [vfsClose, hk]
  · intro key f hf hr
    simp only [vfsClose, hf]
    rw [if_pos ⟨by omega, by omega⟩]
  · intro key f hf hr
    simp only [vfsClose, hf]
    rw [if_neg (by omega)]
  · intro h
    cases h with
    | none => rfl
    | some key =>
      simp only [vfsClose]
      cases hl : lookupA st.virtualFiles key with
      | none => rfl
      | some f =>
        dsimp only
        by_cases hc : f.readers ≠ 0 ∧ f.readers - 1 ≠ 0
        · rw [if_pos hc]
        · rw [if_neg hc]

/-- C9 witness: closing the write handle of `st2` (readers 0) erases the
entry in one step. -/
theorem c9_closeBehaviourWitness :
    vfsClose st2 (some keyDG) =
      { st2 with virtualFiles := eraseA st2.virtualFiles keyDG } :=
  (c9_closeBehaviour st2).2.2.2.1 keyDG fDGw (by decide) (by decide)

/-- C4: for a read handle (`openR`), a real buffer and a positive length,
`Read` clamps the length to `data_len` and, when the clamped length fits in
the first page's payload (`page_size - 2 * st_size`), serves it with one
backing-file read at absolute offset
`first_page * page_size + 2 * W` (offset `W` into the page after the
`W`-byte file header), returning that read's bytes. -/
theorem c4_singlePageRead (cfg : Cfg) (st : VFSState) (key : List Nat)
    (f : VFile) (p : PhysicalFile) (len fuel : Nat)
    (hf : lookupA st.virtualFiles key = some f)
    (hs : f.status = .openR)
    (hpf : lookupA st.physicalFiles f.pFile = some p)
    (hl : 0 < len)
    (hfit : min len f.dataLen ≤ cfg.pageSize - 2 * cfg.W) :
    vfsRead cfg st (some key) false len fuel =
      p.readAt (min len f.dataLen) (f.page * cfg.pageSize + 2 * cfg.W) := by
  have hl0 : len ≠ 0 := by omega
  have hoff : f.page * cfg.pageSize + Cfg.start cfg + cfg.W
      = f.page * cfg.pageSize + 2 * cfg.W := by
    unfold Cfg.start
    ring
  simp only [vfsRead, hf, hpf]
  rw [if_neg (by simp [hl0])]
  rw [if_neg (fun hc => hc hs)]
  rw [← min_def]
  rw [if_pos (by omega)]
  rw [hoff]

/-- C4 witness: reading 5 bytes through the freshly opened handle of `st4`
is one backing read of `min 5 13 = 5` bytes at offset
`2 * 16 + 2 * 2 = 36`. -/
theorem c4_singlePageReadWitness :
    vfsRead cfgS st4 (some keyDG) false 5 20 =
      pfFinal.readAt (min 5 fDG.dataLen) (fDG.page * cfgS.pageSize + 2 * cfgS.W) :=
  c4_singlePageRead cfgS st4 keyDG fDG pfFinal 5 20 (by decide) (by decide)
    (by decide) (by decide) (by decide)

/-- Helper for C8: a successful run of the bootstrap record loop leaves
`virtual_files` and `physical_files` alone and appends exactly the visited
`dir` records to `virtual_dirs`. -/
theorem initRecordsLoopSpec (cfg : Cfg) (pPath : List Nat) (buf : List Nat) :
    ∀ fuel st pos st', initRecordsLoop cfg st pPath buf pos fuel = .ok st' →
      st'.virtualFiles = st.virtualFiles ∧
      st'.physicalFiles = st.physicalFiles ∧
      st'.virtualDirs
        = foldInsertDirs st.virtualDirs pPath (pageRecords cfg buf pos fuel) := by
  intro fuel
  induction fuel with
  | zero =>
    intro st pos st' h
    simp only [initRecordsLoop] at h
    injection h with h
    subst h
    exact ⟨rfl, rfl, rfl⟩
  | succ fuel ih =>
    intro st pos st' h
    simp only [initRecordsLoop] at h
    by_cases hd : (readFileInfo cfg buf pos).1.type = dirTag
    · rw [if_pos hd] at h
      unfold insertDirE at h
      by_cases hdup : (lookupA st.virtualDirs (readFileInfo cfg buf pos).1.name).isSome
      · rw [if_pos hdup] at h
        simp at h
      · rw [if_neg hdup] at h
        dsimp only at h
        simp only [pageRecords, foldInsertDirs, List.foldl_cons, if_pos hd]
        by_cases hcont : 0 < (readFileInfo cfg buf pos).2 ∧
            (readFileInfo cfg buf pos).2 < cfg.pageSize - cfg.W
        · rw [if_pos hcont] at h
          rw [if_pos hcont]
          exact ih _ _ _ h
        · rw [if_neg hcont] at h
          rw [if_neg hcont]
          injection h with h
          subst h
          exact ⟨rfl, rfl, rfl⟩
    · rw [if_neg hd] at h
      dsimp only at h
      simp only [pageRecords, foldInsertDirs, List.foldl_cons, if_neg hd]
      by_cases hcont : 0 < (readFileInfo cfg buf pos).2 ∧
          (readFileInfo cfg buf pos).2 < cfg.pageSize - cfg.W
      · rw [if_pos hcont] at h
        rw [if_pos hcont]
        exact ih _ _ _ h
      · rw [if_neg hcont] at h
        rw [if_neg hcont]
        injection h with h
        subst h
        exact ⟨rfl, rfl, rfl⟩

/-- Helper for C8: a successful run of the bootstrap page loop leaves
`virtual_files` and `physical_files` alone and appends exactly the `dir`
records of the chain from `page` on to `virtual_dirs`. -/
theorem initPagesLoopSpec (cfg : Cfg) (pPath : List Nat) (p : PhysicalFile) :
    ∀ fuel st page st', initPagesLoop cfg st pPath p page fuel = .ok st' →
      st'.virtualFiles = st.virtualFiles ∧
      st'.physicalFiles = st.physicalFiles ∧
      st'.virtualDirs
        = foldInsertDirs st.virtualDirs pPath (chainRecords cfg p page fuel) := by
  intro fuel
  induction fuel with
  | zero =>
    intro st page st' h
    simp only [initPagesLoop] at h
    injection h with h
    subst h
    exact ⟨rfl, rfl, rfl⟩
  | succ fuel ih =>
    intro st page st' h
    simp only [initPagesLoop] at h
    simp only [chainRecords]
    by_cases hlen : (p.readAt cfg.pageSize (page * cfg.pageSize + cfg.start)).length
        ≠ cfg.pageSize
    · rw [if_pos hlen] at h
      simp at h
    · rw [if_neg hlen] at h
      rw [if_neg hlen]
      cases hrec : initRecordsLoop cfg st pPath
          (p.readAt cfg.pageSize (page * cfg.pageSize + cfg.start)) 0 cfg.pageSize with
      | error e =>
        rw [hrec] at h
        simp at h
      | ok st1 =>
        rw [hrec] at h
        dsimp only at h
        obtain ⟨hv1, hp1, hd1⟩ := initRecordsLoopSpec cfg pPath _ _ _ _ _ hrec
        by_cases hnxt : 0 < getNextPage cfg
            (p.readAt cfg.pageSize (page * cfg.pageSize + cfg.start))
        · rw [if_pos hnxt] at h
          rw [if_pos hnxt]
          obtain ⟨hv2, hp2, hd2⟩ := ih _ _ _ h
          refine ⟨hv2.trans hv1, hp2.trans hp1, ?_⟩
          rw [hd2, hd1]
          unfold foldInsertDirs
          rw [List.foldl_append]
        · rw [if_neg hnxt] at h
          rw [if_neg hnxt]
          injection h with h
          subst h
          rw [List.append_nil]
          exact ⟨hv1, hp1, hd1⟩

/-- C8: per-backing-file bootstrap.  When the `file_header` reads as zero,
`Init` inserts nothing at all (the state is returned unchanged).  When it is
nonzero and `Init` completes, `virtual_files` is untouched — no `file`-type
record is loaded — and `virtual_dirs` gains exactly the `dir`-type records
of page 0's chain, each name mapped to its page and backing file. -/
theorem c8_bootstrapDirs (cfg : Cfg) (st : VFSState) (pPath : List Nat)
    (p : PhysicalFile) (fuel : Nat)
    (hpf : lookupA st.physicalFiles pPath = some p) :
    ((p.readAt cfg.W 0).length = cfg.W → decodeW (p.readAt cfg.W 0) = 0 →
       vfsInit cfg st pPath fuel = .ok st) ∧
    (∀ st', decodeW (p.readAt cfg.W 0) ≠ 0 →
       vfsInit cfg st pPath fuel = .ok st' →
       st'.virtualFiles = st.virtualFiles ∧
       st'.virtualDirs
         = foldInsertDirs st.virtualDirs pPath (chainRecords cfg p 0 fuel)) := by
  constructor
  · intro h1 h2
    simp only [vfsInit, hpf]
    rw [if_neg (by simp [h1]), if_pos h2]
  · intro st' hne h
    simp only [vfsInit, hpf] at h
    by_cases h1 : (p.readAt cfg.W 0).length ≠ cfg.W
    · rw [if_pos h1] at h
      simp at h
    · rw [if_neg h1] at h
      rw [if_neg hne] at h
      obtain ⟨hv, hp, hd⟩ := initPagesLoopSpec cfg pPath p fuel _ 0 st' h
      exact ⟨hv, hd⟩

/-- C8 witness: bootstrapping the one-record backing file `pfI` (header 1,
a single `dir` record `"/d" ↦ page 1`) loads exactly that directory and no
virtual file. -/
theorem c8_bootstrapDirsWitness :
    stIres.virtualFiles = stI.virtualFiles ∧
    stIres.virtualDirs
      = foldInsertDirs stI.virtualDirs bfKeyI (chainRecords cfgS pfI 0 5) :=
  (c8_bootstrapDirs cfgS stI bfKeyI pfI 5 (by decide)).2 stIres (by decide)
    (by rfl)
